/-
Verification of the image post-processing and publishing pipeline of
src/fastapi_app.py (AutoTableCropNSplit): content-type validation, candidate
selection, geometric trim/split arithmetic, PNG-encoding normalization,
tmpfiles.org URL normalization, and the two request handlers.

Strings are modelled as `List Char`; Python byte strings as `List Nat`.
External collaborators (PIL decoding, the table cropper, HTTP) are passed to
the handlers as explicit oracle functions, so the handlers themselves are the
pure functions embedded from the source.
-/
import Mathlib

deriving instance DecidableEq for Except

namespace AutoTableCrop

/-- Shorthand: the character list of a string literal. -/
def chars (s : String) : List Char := s.toList

/-- Python `s.startswith(p)` on character lists. -/
def beginsWith : List Char → List Char → Bool
  | [], _ => true
  | _ :: _, [] => false
  | p :: ps, c :: cs => p = c && beginsWith ps cs

/-- Python `pat in s` (substring containment) on character lists. -/
def occursIn (pat : List Char) : List Char → Bool
  | [] => beginsWith pat []
  | c :: rest => beginsWith pat (c :: rest) || occursIn pat rest

/-- Python `s.endswith(e)` on character lists. -/
def endsWithL (e s : List Char) : Bool := beginsWith e.reverse s.reverse

/-- Python `s.lower()` on character lists (ASCII content types only appear). -/
def lowerChars (s : List Char) : List Char := s.map Char.toLower

/-- Fuelled worker for `replaceAllL`; fuel `s.length` always suffices. -/
def replaceAllFuel (pat rep : List Char) : Nat → List Char → List Char
  | 0, s => s
  | _ + 1, [] => []
  | fuel + 1, c :: rest =>
    if 0 < pat.length ∧ beginsWith pat (c :: rest) = true then
      rep ++ replaceAllFuel pat rep fuel (rest.drop (pat.length - 1))
    else
      c :: replaceAllFuel pat rep fuel rest

/-- Python `s.replace(pat, rep)`: leftmost, non-overlapping replacement of
every occurrence of `pat` (nonempty in all uses here) in `s`. -/
def replaceAllL (pat rep s : List Char) : List Char :=
  replaceAllFuel pat rep s.length s

/-- Python `os.path.basename` (POSIX): the characters after the last slash. -/
def basenameL (s : List Char) : List Char :=
  (s.reverse.takeWhile (fun c => ¬ c = '/')).reverse

/-- The root part of Python `os.path.splitext` applied to a basename: strip
the extension beginning at the last dot, where leading dots never begin an
extension. -/
def splitextRootL (s : List Char) : List Char :=
  let lead := s.takeWhile (fun c => c = '.')
  let rest := s.drop lead.length
  if occursIn [Char.ofNat 46] rest = true then
    lead ++ ((rest.reverse.dropWhile (fun c => ¬ c = '.')).tail).reverse
  else s

/-- Python `x or default` for an optional string field: `None` and `""` are
falsy. -/
def pyOr (o : Option (List Char)) (d : List Char) : List Char :=
  match o with
  | some s => if s = [] then d else s
  | none => d

/-- A pixel, carrying RGBA channel values; non-RGB PIL modes are represented
through the same channel record. -/
structure Pixel where
  r : Nat
  g : Nat
  b : Nat
  a : Nat
deriving DecidableEq

/-- An in-memory decoded raster image (`PIL.Image.Image`): a colour mode and
a row-major pixel grid. -/
structure PILImage where
  mode : List Char
  rows : List (List Pixel)
deriving DecidableEq

/-- Image height, as read from `pil_img.size`. -/
def imgHeight (img : PILImage) : Nat := img.rows.length

/-- Image width, as read from `pil_img.size` (length of the first row). -/
def imgWidth (img : PILImage) : Nat := (img.rows.headD []).length

/-- PIL `img.convert("RGB")` as documented: the colour channels are kept and
alpha is discarded (set fully opaque); a no-op on an RGB image. -/
def convertRGB (img : PILImage) : PILImage :=
  if img.mode = chars "RGB" then img
  else ⟨chars "RGB", img.rows.map (fun row => row.map (fun p => ⟨p.r, p.g, p.b, 255⟩))⟩

/-- PIL `img.crop((left, upper, right, lower))` for in-bounds boxes (the only
boxes the source builds on decoded images): the row slice `[upper, lower)` of
the column slice `[left, right)`. -/
def cropImage (left upper right lower : Nat) (img : PILImage) : PILImage :=
  ⟨img.mode,
    ((img.rows.drop upper).take (lower - upper)).map
      (fun row => (row.drop left).take (right - left))⟩

/-- The channel bytes PNG stores for one pixel: RGBA images keep the alpha
sample, every other mode stores the three colour samples. -/
def pixelSamples (mode : List Char) (p : Pixel) : List Nat :=
  if mode = chars "RGBA" then [p.r, p.g, p.b, p.a] else [p.r, p.g, p.b]

/-- Lossless PNG serialization modelled at the level the spec needs: the byte
stream is a function of exactly the mode, the dimensions and the pixel
samples. -/
def pngSerialize (img : PILImage) : List Nat :=
  img.mode.map Char.toNat ++ [imgWidth img, imgHeight img] ++
    (img.rows.map (fun row => (row.map (pixelSamples img.mode)).flatten)).flatten

/-- `_pil_to_png_bytes` (src/fastapi_app.py lines 47-53): save as PNG, first
converting to RGB unless the mode is already RGB or RGBA. -/
def pil_to_png_bytes (img : PILImage) : List Nat :=
  if img.mode = chars "RGB" ∨ img.mode = chars "RGBA" then pngSerialize img
  else pngSerialize (convertRGB img)

/-- The HTTP error a handler raises (`HTTPException(status_code, detail)`). -/
structure HError where
  status : Nat
  detail : List Char
deriving DecidableEq

/-- The supported content-type suffixes of `_validate_image_content_type`
(line 43). -/
def imageExtensions : List (List Char) :=
  [chars "jpeg", chars "jpg", chars "png", chars "bmp", chars "tiff"]

/-- `_validate_image_content_type` (lines 41-44): lower-case the declared
content type (`None` coalesced to the empty string) and require one of the
supported suffixes; otherwise a 400. Pure: no side effect. -/
def validate_image_content_type (contentType : Option (List Char)) : Except HError Unit :=
  let ct := lowerChars (contentType.getD [])
  if imageExtensions.any (fun ext => endsWithL ext ct) then
    Except.ok ()
  else
    Except.error ⟨400, chars "Unsupported file type. Upload PNG/JPG/JPEG/BMP/TIFF."⟩

/-- URL normalization inside `upload_to_tmpfiles` (lines 81-87), applied to
the URL extracted from a successful upload response: when the URL starts with
`http://`, every occurrence of `http://` is replaced by `https://` (Python
`str.replace` replaces all occurrences); then, when `/dl/` occurs nowhere in
the result, every occurrence of `tmpfiles.org/` is rewritten to
`tmpfiles.org/dl/`. -/
def normalizeUploadUrl (u : List Char) : List Char :=
  let u1 := if beginsWith (chars "http://") u = true
    then replaceAllL (chars "http://") (chars "https://") u else u
  if occursIn (chars "/dl/") u1 = true then u1
  else replaceAllL (chars "tmpfiles.org/") (chars "tmpfiles.org/dl/") u1

/-- An incoming `UploadFile`: declared content type, client filename, and the
body bytes returned by `await image.read()`. -/
structure UploadFile where
  contentType : Option (List Char)
  filename : Option (List Char)
  content : List Nat
deriving DecidableEq

/-- `image.filename or "uploaded.png"` (lines 102 and 153). -/
def origName (f : UploadFile) : List Char := pyOr f.filename (chars "uploaded.png")

/-- Candidate selection of the preview handler (line 111):
`result.get("perspective_corrected") or result.get("cropped_table") or
result.get("original")`; PIL images are always truthy, so Python `or` is
exactly `Option` choice here. -/
def selectCandidate (result : List Char → Option PILImage) : Option PILImage :=
  match result (chars "perspective_corrected") with
  | some i => some i
  | none =>
    match result (chars "cropped_table") with
    | some i => some i
    | none => result (chars "original")

/-- The preview trim window (lines 116-120) as the PIL crop box
`(left, upper, right, lower)`. Python computes `int(0.27 * width)` and
`int(0.12 * height)` in floating point; for every realizable image dimension
these equal the exact floors `27 * w / 100` and `12 * h / 100` used here. -/
def previewCropBox (width height : Nat) : Nat × Nat × Nat × Nat :=
  let left_trim := 27 * width / 100
  let bottom_trim := 12 * height / 100
  (left_trim, 0, max (left_trim + 1) width, max 1 (height - bottom_trim))

/-- The JSON body of a successful `/api/crop-preview` response
(`{status: "success", filename, url}`; the constant status field is left
implicit). -/
structure PreviewResponse where
  filename : List Char
  url : List Char
deriving DecidableEq

/-- The JSON body of a successful `/api/split-halves` response
(`{status: "success", top_half: {filename, url}, bottom_half: {filename,
url}}`). -/
structure SplitResponse where
  topName : List Char
  topUrl : List Char
  bottomName : List Char
  bottomUrl : List Char
deriving DecidableEq

/-- The top half (line 183): `pil_img.crop((0, 0, width, mid))` with
`mid = height // 2`. -/
def splitTop (img : PILImage) : PILImage :=
  cropImage 0 0 (imgWidth img) (imgHeight img / 2) img

/-- The bottom half (line 184): `pil_img.crop((0, mid, width, height))`. -/
def splitBottom (img : PILImage) : PILImage :=
  cropImage 0 (imgHeight img / 2) (imgWidth img) (imgHeight img) img

/-- `os.path.splitext(os.path.basename(original_name))[0]` (line 191). -/
def splitNameBase (originalName : List Char) : List Char :=
  splitextRootL (basenameL originalName)

/-- The top-half filename `f"{name_base}_top_half.png"` (line 192). -/
def splitTopName (originalName : List Char) : List Char :=
  splitNameBase originalName ++ chars "_top_half.png"

/-- The bottom-half filename `f"{name_base}_bottom_half.png"` (line 193). -/
def splitBottomName (originalName : List Char) : List Char :=
  splitNameBase originalName ++ chars "_bottom_half.png"

/-- The encoded top half (lines 179-186): decode result converted to RGB,
cropped to the top rows, PNG-encoded. -/
def splitTopBytes (decoded : PILImage) : List Nat :=
  pil_to_png_bytes (splitTop (convertRGB decoded))

/-- The encoded bottom half (lines 179-187). -/
def splitBottomBytes (decoded : PILImage) : List Nat :=
  pil_to_png_bytes (splitBottom (convertRGB decoded))

/-- The URL branch of the split handler (lines 154-174): normalize tmpfiles
links to direct-download form, fetch with `requests.get` (modelled by the
`download` oracle returning either an exception message or a status code and
body), reject non-200 with a 400, wrap network failures in a 400, and derive
a filename from the URL. -/
def fetchImageFromUrl (download : List Char → Except (List Char) (Nat × List Nat))
    (u : List Char) : Except HError (List Nat × List Char) :=
  let url1 := if beginsWith (chars "http://") u = true
    then replaceAllL (chars "http://") (chars "https://") u else u
  let url2 := if (occursIn (chars "tmpfiles.org") url1 && ! occursIn (chars "/dl/") url1) = true
    then replaceAllL (chars "tmpfiles.org/") (chars "tmpfiles.org/dl/") url1 else url1
  match download url2 with
  | Except.error e => Except.error ⟨400, chars "Failed to download image from URL: " ++ e⟩
  | Except.ok (status, content) =>
    if status = 200 then
      let q := url2.takeWhile (fun c => ¬ c = '?')
      let nm0 := if q = [] then chars "downloaded.png" else q
      let nm1 := basenameL nm0
      Except.ok (content, if nm1 = [] then chars "downloaded.png" else nm1)
    else
      Except.error ⟨400, chars "Failed to download image: HTTP " ++ (toString status).toList⟩

/-- Decode, split, encode and publish both halves (lines 178-202); the
`decode` oracle stands for `PIL.Image.open` on the raw bytes, `publish` for
`upload_to_tmpfiles` (returning the public URL or the raised exception
message). Any oracle exception is caught by the handler-wide
`except Exception` and becomes a 500 `Split failed: ...`. -/
def splitCore (bytes : List Nat) (originalName : List Char)
    (decode : List Nat → Except (List Char) PILImage)
    (publish : List Char → List Nat → Except (List Char) (List Char)) :
    Except HError SplitResponse :=
  match decode bytes with
  | Except.error m => Except.error ⟨500, chars "Split failed: " ++ m⟩
  | Except.ok decoded =>
    match publish (splitTopName originalName) (splitTopBytes decoded) with
    | Except.error m => Except.error ⟨500, chars "Split failed: " ++ m⟩
    | Except.ok topUrl =>
      match publish (splitBottomName originalName) (splitBottomBytes decoded) with
      | Except.error m => Except.error ⟨500, chars "Split failed: " ++ m⟩
      | Except.ok bottomUrl =>
        Except.ok ⟨splitTopName originalName, topUrl, splitBottomName originalName, bottomUrl⟩

/-- The `Provide either ... form field` 400 detail (line 176). -/
def missingSourceMsg : List Char :=
  chars "Provide either \x27image\x27 file or \x27image_url\x27 form field"

/-- `split_image_halves`, the `/api/split-halves` handler (lines 135-207).
`image is not None` takes the file branch; otherwise `elif image_url:` treats
`None` and the empty string as absent and falls through to the 400. -/
def split_image_halves (image : Option UploadFile) (image_url : Option (List Char))
    (download : List Char → Except (List Char) (Nat × List Nat))
    (decode : List Nat → Except (List Char) PILImage)
    (publish : List Char → List Nat → Except (List Char) (List Char)) :
    Except HError SplitResponse :=
  match image with
  | some f =>
    match validate_image_content_type f.contentType with
    | Except.error e => Except.error e
    | Except.ok _ =>
      if f.content = [] then Except.error ⟨400, chars "Empty file uploaded"⟩
      else splitCore f.content (origName f) decode publish
  | none =>
    match image_url with
    | some u =>
      if u = [] then Except.error ⟨400, missingSourceMsg⟩
      else
        match fetchImageFromUrl download u with
        | Except.error e => Except.error e
        | Except.ok (bytes, nm) => splitCore bytes nm decode publish
    | none => Except.error ⟨400, missingSourceMsg⟩

/-- `crop_and_perspective_correction`, the `/api/crop-preview` handler
(lines 93-132). The `cropper` oracle stands for `_process_with_cropper`
(the external `AdvancedTableCropper`, fed the original filename via the
`_last_name` attribute), returning the candidate mapping or the raised
exception message; `publish` stands for `upload_to_tmpfiles`. -/
def crop_and_perspective_correction (image : UploadFile)
    (cropper : List Nat → List Char → Except (List Char) (List Char → Option PILImage))
    (publish : List Char → List Nat → Except (List Char) (List Char)) :
    Except HError PreviewResponse :=
  match validate_image_content_type image.contentType with
  | Except.error e => Except.error e
  | Except.ok _ =>
    if image.content = [] then Except.error ⟨400, chars "Empty file uploaded"⟩
    else
      match cropper image.content (origName image) with
      | Except.error m => Except.error ⟨500, chars "Processing failed: " ++ m⟩
      | Except.ok result =>
        match selectCandidate result with
        | none => Except.error ⟨500, chars "Processing failed to produce an output image"⟩
        | some outImg =>
          let box := previewCropBox (imgWidth outImg) (imgHeight outImg)
          let outImg2 := cropImage box.1 box.2.1 box.2.2.1 box.2.2.2 outImg
          let fname := splitextRootL (basenameL (pyOr image.filename (chars "uploaded")))
            ++ chars "_preview.png"
          match publish fname (pil_to_png_bytes outImg2) with
          | Except.error m => Except.error ⟨500, chars "Processing failed: " ++ m⟩
          | Except.ok url => Except.ok ⟨fname, url⟩

/-- A small concrete RGB image used to instantiate the handler theorems. -/
def testImg : PILImage :=
  ⟨chars "RGB", [[⟨1, 2, 3, 255⟩], [⟨4, 5, 6, 255⟩], [⟨7, 8, 9, 255⟩]]⟩

/-- A concrete well-formed upload used to instantiate the handler theorems. -/
def testFile : UploadFile := ⟨some (chars "image/png"), some (chars "a.png"), [7]⟩

/-- A decode oracle producing `testImg` for any byte string. -/
def testDecode : List Nat → Except (List Char) PILImage := fun _ => Except.ok testImg

/-- A download oracle that always fails (never reached in the runs below). -/
def testDownload : List Char → Except (List Char) (Nat × List Nat) :=
  fun _ => Except.error (chars "network unavailable")

/-- A publish oracle that always succeeds with a fixed URL. -/
def testPublishOk : List Char → List Nat → Except (List Char) (List Char) :=
  fun _ _ => Except.ok (chars "https://u")

/-- A publish oracle succeeding on the top-half filename of `testFile` and
failing on everything else. -/
def testPublishBottomFail : List Char → List Nat → Except (List Char) (List Char) :=
  fun n _ => if n = splitTopName (chars "a.png") then Except.ok (chars "https://t")
    else Except.error (chars "boom")

theorem beginsWith_iff (p s : List Char) : beginsWith p s = true ↔ ∃ t, s = p ++ t := by
  induction p generalizing s with
  | nil =>
    constructor
    · intro _; exact ⟨s, rfl⟩
    · intro _; rfl
  | cons x xs ih =>
    cases s with
    | nil =>
      constructor
      · intro h; exact absurd h (by simp [beginsWith])
      · rintro ⟨t, ht⟩; exact absurd ht (by simp)
    | cons c cs =>
      simp only [beginsWith, Bool.and_eq_true, decide_eq_true_eq, ih]
      constructor
      · rintro ⟨hx, t, ht⟩
        exact ⟨t, by simp [hx, ht]⟩
      · rintro ⟨t, ht⟩
        rw [List.cons_append] at ht
        injection ht with h1 h2
        exact ⟨h1.symm, t, h2⟩

theorem beginsWith_self_append (p t : List Char) : beginsWith p (p ++ t) = true :=
  (beginsWith_iff p (p ++ t)).mpr ⟨t, rfl⟩

theorem endsWithL_iff (e s : List Char) : endsWithL e s = true ↔ ∃ t, s = t ++ e := by
  rw [endsWithL, beginsWith_iff]
  constructor
  · rintro ⟨t, ht⟩
    refine ⟨t.reverse, ?_⟩
    have := congrArg List.reverse ht
    simpa using this
  · rintro ⟨t, ht⟩
    exact ⟨t.reverse, by simp [ht]⟩

theorem occursIn_append_right (pat s t : List Char) (h : occursIn pat t = true) :
    occursIn pat (s ++ t) = true := by
  induction s with
  | nil => simpa using h
  | cons c cs ih =>
    rw [List.cons_append]
    rw [show occursIn pat (c :: (cs ++ t))
      = (beginsWith pat (c :: (cs ++ t)) || occursIn pat (cs ++ t)) from rfl]
    simp [ih]

theorem occursIn_cons_false (pat : List Char) (c : Char) (rest : List Char)
    (h : occursIn pat (c :: rest) = false) :
    beginsWith pat (c :: rest) = false ∧ occursIn pat rest = false := by
  rw [show occursIn pat (c :: rest)
    = (beginsWith pat (c :: rest) || occursIn pat rest) from rfl] at h
  exact ⟨by simpa using (Bool.or_eq_false_iff.mp h).1,
    (Bool.or_eq_false_iff.mp h).2⟩

theorem replaceAllFuel_irrel (pat rep : List Char) :
    ∀ fuel1 fuel2 s, s.length ≤ fuel1 → s.length ≤ fuel2 →
      replaceAllFuel pat rep fuel1 s = replaceAllFuel pat rep fuel2 s := by
  intro fuel1
  induction fuel1 with
  | zero =>
    intro fuel2 s h1 _
    have hs : s = [] := List.length_eq_zero.mp (Nat.le_zero.mp h1)
    subst hs
    cases fuel2 <;> rfl
  | succ f1 ih =>
    intro fuel2 s h1 h2
    cases s with
    | nil => cases fuel2 <;> rfl
    | cons c rest =>
      cases fuel2 with
      | zero => exact absurd h2 (by simp)
      | succ f2 =>
        by_cases hc : 0 < pat.length ∧ beginsWith pat (c :: rest) = true
        · rw [show replaceAllFuel pat rep (f1 + 1) (c :: rest)
            = rep ++ replaceAllFuel pat rep f1 (rest.drop (pat.length - 1)) from by
              simp [replaceAllFuel, hc]]
          rw [show replaceAllFuel pat rep (f2 + 1) (c :: rest)
            = rep ++ replaceAllFuel pat rep f2 (rest.drop (pat.length - 1)) from by
              simp [replaceAllFuel, hc]]
          have hlen : (rest.drop (pat.length - 1)).length ≤ rest.length := by
            simp [List.length_drop]
          have hr1 : rest.length ≤ f1 := by simpa using Nat.lt_succ_iff.mp (Nat.lt_of_lt_of_le (by simp) h1)
          have hr2 : rest.length ≤ f2 := by simpa using Nat.lt_succ_iff.mp (Nat.lt_of_lt_of_le (by simp) h2)
          rw [ih f2 (rest.drop (pat.length - 1)) (Nat.le_trans hlen hr1) (Nat.le_trans hlen hr2)]
        · rw [show replaceAllFuel pat rep (f1 + 1) (c :: rest)
            = c :: replaceAllFuel pat rep f1 rest from by simp [replaceAllFuel, hc]]
          rw [show replaceAllFuel pat rep (f2 + 1) (c :: rest)
            = c :: replaceAllFuel pat rep f2 rest from by simp [replaceAllFuel, hc]]
          have hr1 : rest.length ≤ f1 := by simpa [Nat.succ_le_succ_iff] using h1
          have hr2 : rest.length ≤ f2 := by simpa [Nat.succ_le_succ_iff] using h2
          rw [ih f2 rest hr1 hr2]

theorem replaceAllFuel_eq_replaceAllL (pat rep s : List Char) (fuel : Nat)
    (h : s.length ≤ fuel) : replaceAllFuel pat rep fuel s = replaceAllL pat rep s :=
  replaceAllFuel_irrel pat rep fuel s.length s h (Nat.le_refl _)

theorem replaceAllL_of_not_occurs (pat rep s : List Char)
    (h : occursIn pat s = false) : replaceAllL pat rep s = s := by
  induction s with
  | nil => rfl
  | cons c rest ih =>
    obtain ⟨hb, ho⟩ := occursIn_cons_false pat c rest h
    rw [replaceAllL, show (c :: rest).length = rest.length + 1 from rfl]
    rw [show replaceAllFuel pat rep (rest.length + 1) (c :: rest)
      = c :: replaceAllFuel pat rep rest.length rest from by simp [replaceAllFuel, hb]]
    rw [replaceAllFuel_eq_replaceAllL pat rep rest rest.length (Nat.le_refl _)]
    rw [ih ho]

theorem replaceAllL_pat_append (pat rep s : List Char) (hp : pat ≠ []) :
    replaceAllL pat rep (pat ++ s) = rep ++ replaceAllL pat rep s := by
  cases pat with
  | nil => exact absurd rfl hp
  | cons p ps =>
    rw [replaceAllL, List.cons_append]
    have hcond : 0 < (p :: ps).length ∧ beginsWith (p :: ps) (p :: (ps ++ s)) = true := by
      refine ⟨by simp, ?_⟩
      rw [show (p :: (ps ++ s)) = (p :: ps) ++ s from rfl]
      exact beginsWith_self_append (p :: ps) s
    rw [show (p :: (ps ++ s)).length = (ps ++ s).length + 1 from rfl]
    rw [show replaceAllFuel (p :: ps) rep ((ps ++ s).length + 1) (p :: (ps ++ s))
      = rep ++ replaceAllFuel (p :: ps) rep ((ps ++ s).length)
          ((ps ++ s).drop ((p :: ps).length - 1)) from by simp [replaceAllFuel, hcond]]
    rw [show (p :: ps).length - 1 = ps.length from rfl]
    rw [List.drop_left]
    rw [replaceAllFuel_eq_replaceAllL (p :: ps) rep s ((ps ++ s).length) (by simp)]

/-- A cropper oracle returning a candidate set with no candidates at all. -/
def testCropperNone : List Nat → List Char → Except (List Char) (List Char → Option PILImage) :=
  fun _ _ => Except.ok (fun _ => none)

/-- A grayscale test image (mode neither RGB nor RGBA). -/
def testGray : PILImage := ⟨chars "L", [[⟨5, 6, 7, 0⟩]]⟩

/-- Claim C1, counterexample: a split request supplying BOTH the file field
and the `image_url` form field is not rejected with a 400; the handler takes
the file branch, processes, encodes and publishes both halves, and returns a
success response. -/
theorem split_both_sources_counterexample :
    split_image_halves (some testFile) (some (chars "http://e.com/x.png"))
      testDownload testDecode testPublishOk
    = Except.ok ⟨chars "a_top_half.png", chars "https://u",
        chars "a_bottom_half.png", chars "https://u"⟩ := by decide

/-- Claim C1, amended: supplying neither source is rejected with a 400 and
nothing is processed, encoded or published (the result is the fixed
missing-source error whatever the oracles do); supplying both sources is not
rejected: the file takes precedence and `image_url` is ignored (the request
behaves exactly as if only the file had been sent). -/
theorem split_source_resolution_amended :
    (∀ dl dec pub, split_image_halves none none dl dec pub
        = Except.error ⟨400, missingSourceMsg⟩)
    ∧ (∀ f u dl dec pub, split_image_halves (some f) (some u) dl dec pub
        = split_image_halves (some f) none dl dec pub) :=
  ⟨fun _ _ _ => rfl, fun _ _ _ _ _ => rfl⟩

/-- Claim C10: a split request with no file and an empty-string `image_url`
is treated as having no source: it is rejected with the 400 missing-source
error, and no download is attempted (the result is the same fixed error for
every download oracle). -/
theorem split_empty_url_missing_source :
    ∀ dl dec pub, split_image_halves none (some []) dl dec pub
      = Except.error ⟨400, missingSourceMsg⟩ :=
  fun _ _ _ => rfl

/-- Claim C4, counterexample: the claim says a URL already containing `/dl/`
keeps its path unchanged, with only the scheme upgraded, which would map the
input below to `https://tmpfiles.org/dl/a?u=http://b`; the code instead
replaces EVERY occurrence of `http://` (Python `str.replace`), also the one
inside the query, so the path/query part is changed. -/
theorem upload_url_normalization_counterexample :
    normalizeUploadUrl (chars "http://tmpfiles.org/dl/a?u=http://b")
      = chars "https://tmpfiles.org/dl/a?u=https://b"
    ∧ ¬ normalizeUploadUrl (chars "http://tmpfiles.org/dl/a?u=http://b")
      = chars "https://tmpfiles.org/dl/a?u=http://b" := by decide

/-- Claim C4, amended: when the URL starts with `http://`, every occurrence
of `http://` is replaced by `https://` — hence, whenever `http://` occurs
only as the leading scheme, exactly the leading scheme is upgraded; a URL
already containing `/dl/` that does not start with `http://` is returned
unchanged; and `http://tmpfiles.org/abc123` normalizes to
`https://tmpfiles.org/dl/abc123`. -/
theorem upload_url_normalization_amended :
    (∀ rest : List Char, occursIn (chars "http://") rest = false →
        occursIn (chars "/dl/") rest = true →
        normalizeUploadUrl (chars "http://" ++ rest) = chars "https://" ++ rest)
    ∧ (∀ u : List Char, beginsWith (chars "http://") u = false →
        occursIn (chars "/dl/") u = true → normalizeUploadUrl u = u)
    ∧ normalizeUploadUrl (chars "http://tmpfiles.org/abc123")
      = chars "https://tmpfiles.org/dl/abc123" := by
  refine ⟨?_, ?_, by decide⟩
  · intro rest h1 h2
    have hb := beginsWith_self_append (chars "http://") rest
    have hrepl : replaceAllL (chars "http://") (chars "https://") (chars "http://" ++ rest)
        = chars "https://" ++ rest := by
      rw [replaceAllL_pat_append _ _ _ (by decide), replaceAllL_of_not_occurs _ _ _ h1]
    have hdl : occursIn (chars "/dl/") (chars "https://" ++ rest) = true :=
      occursIn_append_right _ _ _ h2
    simp only [normalizeUploadUrl, hb, if_true, hrepl, hdl]
  · intro u hb hd
    simp only [normalizeUploadUrl, hb, hd]
    simp
    intro h
    rw [h] at hd
    simp at hd

/-- Witness for the amended claim C4: a URL whose only `http://` is the
scheme and whose path contains `/dl/` gets exactly its scheme upgraded. -/
theorem upload_url_normalization_amended_witness :
    normalizeUploadUrl (chars "http://" ++ chars "tmpfiles.org/dl/abc")
      = chars "https://" ++ chars "tmpfiles.org/dl/abc" :=
  upload_url_normalization_amended.1 (chars "tmpfiles.org/dl/abc") (by decide) (by decide)

/-- Claim C9: an absent (`None`) declared content type is coalesced to the
empty string and rejected with the 400 unsupported-type error — at the
validator, at the split handler, and at the preview handler, for both the
`None` and the empty-string form, whatever the other request data and
oracles are. -/
theorem missing_content_type_rejected :
    validate_image_content_type none
      = Except.error ⟨400, chars "Unsupported file type. Upload PNG/JPG/JPEG/BMP/TIFF."⟩
    ∧ validate_image_content_type none = validate_image_content_type (some [])
    ∧ (∀ fname bytes dl dec pub,
        split_image_halves (some ⟨none, fname, bytes⟩) none dl dec pub
          = Except.error ⟨400, chars "Unsupported file type. Upload PNG/JPG/JPEG/BMP/TIFF."⟩)
    ∧ (∀ fname bytes dl dec pub,
        split_image_halves (some ⟨some [], fname, bytes⟩) none dl dec pub
          = Except.error ⟨400, chars "Unsupported file type. Upload PNG/JPG/JPEG/BMP/TIFF."⟩)
    ∧ (∀ fname bytes cropper pub,
        crop_and_perspective_correction ⟨none, fname, bytes⟩ cropper pub
          = Except.error ⟨400, chars "Unsupported file type. Upload PNG/JPG/JPEG/BMP/TIFF."⟩) :=
  ⟨by decide, rfl, fun _ _ _ _ _ => rfl, fun _ _ _ _ _ => rfl, fun _ _ _ _ => rfl⟩

/-- Claim C5: on a well-formed split request the handler makes one publisher
call for the top half (first) and one for the bottom half; if the second
(bottom) publish fails with message `m`, the whole request fails with a 500
whose body is only `Split failed: m` — in particular the already obtained
top-half URL appears nowhere in the response; and if the first (top) publish
fails, the request already fails with that message, whatever the bottom call
would return, showing the top half is published first. -/
theorem split_second_publish_failure
    (f : UploadFile) (img : PILImage)
    (dl : List Char → Except (List Char) (Nat × List Nat))
    (dec : List Nat → Except (List Char) PILImage)
    (pub : List Char → List Nat → Except (List Char) (List Char))
    (hv : validate_image_content_type f.contentType = Except.ok ())
    (hne : ¬ f.content = [])
    (hdec : dec f.content = Except.ok img) :
    (∀ u m, pub (splitTopName (origName f)) (splitTopBytes img) = Except.ok u →
        pub (splitBottomName (origName f)) (splitBottomBytes img) = Except.error m →
        split_image_halves (some f) none dl dec pub
          = Except.error ⟨500, chars "Split failed: " ++ m⟩)
    ∧ (∀ m, pub (splitTopName (origName f)) (splitTopBytes img) = Except.error m →
        split_image_halves (some f) none dl dec pub
          = Except.error ⟨500, chars "Split failed: " ++ m⟩) := by
  constructor
  · intro u m ht hb
    simp [split_image_halves, splitCore, hv, hne, hdec, ht, hb]
  · intro m ht
    simp [split_image_halves, splitCore, hv, hne, hdec, ht]

/-- Witness for claim C5: a concrete request whose bottom-half publish fails
returns exactly the 500 with the bottom failure message, without the
top-half URL. -/
theorem split_second_publish_failure_witness :
    split_image_halves (some testFile) none testDownload testDecode testPublishBottomFail
      = Except.error ⟨500, chars "Split failed: boom"⟩ :=
  (split_second_publish_failure testFile testImg testDownload testDecode
      testPublishBottomFail (by decide) (by decide) (by decide)).1
    (chars "https://t") (chars "boom") (by decide) (by decide)

/-- Claim C7: the preview flow selects the output candidate with priority
`perspective_corrected`, then `cropped_table`, then `original`; when the
candidate set yields none of the three, the request fails with the 500
`Processing failed to produce an output image` error, for every publish
oracle — so nothing is published. -/
theorem preview_candidate_priority :
    (∀ (result : List Char → Option PILImage) x,
        result (chars "perspective_corrected") = some x →
        selectCandidate result = some x)
    ∧ (∀ (result : List Char → Option PILImage) y,
        result (chars "perspective_corrected") = none →
        result (chars "cropped_table") = some y →
        selectCandidate result = some y)
    ∧ (∀ (result : List Char → Option PILImage) z,
        result (chars "perspective_corrected") = none →
        result (chars "cropped_table") = none →
        result (chars "original") = some z →
        selectCandidate result = some z)
    ∧ (∀ (f : UploadFile) cropper pub (result : List Char → Option PILImage),
        validate_image_content_type f.contentType = Except.ok () →
        ¬ f.content = [] →
        cropper f.content (origName f) = Except.ok result →
        result (chars "perspective_corrected") = none →
        result (chars "cropped_table") = none →
        result (chars "original") = none →
        crop_and_perspective_correction f cropper pub
          = Except.error ⟨500, chars "Processing failed to produce an output image"⟩) := by
  refine ⟨?_, ?_, ?_, ?_⟩
  · intro result x h
    simp [selectCandidate, h]
  · intro result y h1 h2
    simp [selectCandidate, h1, h2]
  · intro result z h1 h2 h3
    simp [selectCandidate, h1, h2, h3]
  · intro f cropper pub result hv hne hcrop h1 h2 h3
    simp [crop_and_perspective_correction, hv, hne, hcrop, selectCandidate, h1, h2, h3]

/-- Witness for claim C7: a concrete request whose cropper yields an empty
candidate set fails with the 500 no-output error. -/
theorem preview_candidate_priority_witness :
    crop_and_perspective_correction testFile testCropperNone testPublishOk
      = Except.error ⟨500, chars "Processing failed to produce an output image"⟩ :=
  preview_candidate_priority.2.2.2 testFile testCropperNone testPublishOk
    (fun _ => none) (by decide) (by decide) rfl rfl rfl rfl

/-- Claim C6: validation accepts a declared content type exactly when its
lower-cased form ends (as a character suffix) with one of
`jpeg, jpg, png, bmp, tiff`; every other string yields the 400
unsupported-type error. Validation is a pure function, so it has no side
effect. -/
theorem content_type_validation_iff :
    ∀ ct : List Char,
      (validate_image_content_type (some ct) = Except.ok () ↔
        ∃ e ∈ imageExtensions, ∃ t, lowerChars ct = t ++ e)
      ∧ (validate_image_content_type (some ct) = Except.ok ()
          ∨ validate_image_content_type (some ct)
            = Except.error ⟨400, chars "Unsupported file type. Upload PNG/JPG/JPEG/BMP/TIFF."⟩) := by
  intro ct
  by_cases hc : imageExtensions.any (fun ext => endsWithL ext (lowerChars ct)) = true
  · have hok : validate_image_content_type (some ct) = Except.ok () := by
      simp [validate_image_content_type, hc]
    obtain ⟨e, he, hw⟩ := List.any_eq_true.mp hc
    obtain ⟨t, ht⟩ := (endsWithL_iff e (lowerChars ct)).mp hw
    exact ⟨⟨fun _ => ⟨e, he, t, ht⟩, fun _ => hok⟩, Or.inl hok⟩
  · have herr : validate_image_content_type (some ct)
        = Except.error ⟨400, chars "Unsupported file type. Upload PNG/JPG/JPEG/BMP/TIFF."⟩ := by
      simp only [validate_image_content_type]
      rw [if_neg]
      intro h
      exact hc (by simpa using h)
    refine ⟨⟨fun h => ?_, fun h => ?_⟩, Or.inr herr⟩
    · rw [herr] at h
      cases h
    · obtain ⟨e, he, t, ht⟩ := h
      exact absurd (List.any_eq_true.mpr ⟨e, he, (endsWithL_iff e (lowerChars ct)).mpr ⟨t, ht⟩⟩) hc

/-- Claim C3: at W=1000, H=800 the preview crop window is (270, 0, 1000, 704)
(left = floor(0.27*1000) = 270, bottom = 800 - floor(0.12*800) = 704); and
for every positive width the right edge `max(left+1, W)` collapses to `W`, so
no right trim is ever applied. -/
theorem preview_crop_box_spec :
    previewCropBox 1000 800 = (270, 0, 1000, 704)
    ∧ ∀ w h : Nat, 0 < w → (previewCropBox w h).2.2.1 = w := by
  refine ⟨by decide, ?_⟩
  intro w h hw
  have hlt : 27 * w / 100 < w :=
    Nat.div_lt_of_lt_mul (by omega)
  simp only [previewCropBox]
  omega

/-- Witness for claim C3: at width 3 the right edge of the crop box is 3. -/
theorem preview_crop_box_spec_witness : (previewCropBox 3 5).2.2.1 = 3 :=
  preview_crop_box_spec.2 3 5 (by decide)

theorem crop_rows_of_rect (img : PILImage)
    (hW : ∀ row ∈ img.rows, row.length = imgWidth img) :
    (splitTop img).rows = img.rows.take (imgHeight img / 2)
    ∧ (splitBottom img).rows = img.rows.drop (imgHeight img / 2) := by
  have hslice : ∀ row ∈ img.rows, row.take (imgWidth img) = id row := by
    intro row hrow
    rw [← hW row hrow, List.take_length]
    rfl
  constructor
  · show ((img.rows.drop 0).take (imgHeight img / 2 - 0)).map
        (fun row => (row.drop 0).take (imgWidth img - 0)) = img.rows.take (imgHeight img / 2)
    simp only [List.drop_zero, Nat.sub_zero]
    have h1 : ∀ row ∈ img.rows.take (imgHeight img / 2),
        row.take (imgWidth img) = id row := by
      intro row hrow
      exact hslice row (List.take_subset _ _ hrow)
    rw [List.map_congr_left h1, List.map_id]
  · show ((img.rows.drop (imgHeight img / 2)).take (imgHeight img - imgHeight img / 2)).map
        (fun row => (row.drop 0).take (imgWidth img - 0)) = img.rows.drop (imgHeight img / 2)
    simp only [List.drop_zero, Nat.sub_zero]
    have hlen : imgHeight img - imgHeight img / 2 = (img.rows.drop (imgHeight img / 2)).length := by
      simp [imgHeight]
    rw [hlen, List.take_length]
    have h1 : ∀ row ∈ img.rows.drop (imgHeight img / 2),
        row.take (imgWidth img) = id row := by
      intro row hrow
      exact hslice row (List.drop_subset _ _ hrow)
    rw [List.map_congr_left h1, List.map_id]

/-- Claim C2: after RGB normalization of a decoded rectangular image of
height H, the top half is exactly the rows [0, H/2) and the bottom half
exactly the rows [H/2, H) — so the halves are disjoint row ranges, the top
has floor(H/2) rows, the row counts add up to H (the bottom gets the extra
row when H is odd), and concatenating top and bottom reproduces the
RGB-normalized original pixel-for-pixel. -/
theorem split_halves_spec (img0 : PILImage)
    (hW : ∀ row ∈ (convertRGB img0).rows, row.length = imgWidth (convertRGB img0)) :
    (splitTop (convertRGB img0)).rows
        = (convertRGB img0).rows.take (imgHeight (convertRGB img0) / 2)
    ∧ (splitBottom (convertRGB img0)).rows
        = (convertRGB img0).rows.drop (imgHeight (convertRGB img0) / 2)
    ∧ (splitTop (convertRGB img0)).rows.length = imgHeight (convertRGB img0) / 2
    ∧ (splitTop (convertRGB img0)).rows.length + (splitBottom (convertRGB img0)).rows.length
        = imgHeight (convertRGB img0)
    ∧ (splitTop (convertRGB img0)).rows ++ (splitBottom (convertRGB img0)).rows
        = (convertRGB img0).rows := by
  obtain ⟨htop, hbot⟩ := crop_rows_of_rect (convertRGB img0) hW
  have hdiv : imgHeight (convertRGB img0) / 2 ≤ imgHeight (convertRGB img0) :=
    Nat.div_le_self _ _
  refine ⟨htop, hbot, ?_, ?_, ?_⟩
  · rw [htop, List.length_take]
    exact Nat.min_eq_left (by simpa [imgHeight] using hdiv)
  · rw [htop, hbot, List.length_take, List.length_drop]
    have : (convertRGB img0).rows.length = imgHeight (convertRGB img0) := rfl
    omega
  · rw [htop, hbot, List.take_append_drop]

/-- Witness for claim C2: the split of a concrete 3-row RGB image. -/
theorem split_halves_spec_witness :
    (splitTop (convertRGB testImg)).rows
        = (convertRGB testImg).rows.take (imgHeight (convertRGB testImg) / 2)
    ∧ (splitBottom (convertRGB testImg)).rows
        = (convertRGB testImg).rows.drop (imgHeight (convertRGB testImg) / 2)
    ∧ (splitTop (convertRGB testImg)).rows.length = imgHeight (convertRGB testImg) / 2
    ∧ (splitTop (convertRGB testImg)).rows.length + (splitBottom (convertRGB testImg)).rows.length
        = imgHeight (convertRGB testImg)
    ∧ (splitTop (convertRGB testImg)).rows ++ (splitBottom (convertRGB testImg)).rows
        = (convertRGB testImg).rows :=
  split_halves_spec testImg (by decide)

/-- Claim C8: the encoder output is a function of exactly the image's pixel
grid and colour mode (determinism); and on any image whose mode is neither
RGB nor RGBA it first converts to opaque RGB — the converted image has mode
RGB, every colour channel is preserved pixel-for-pixel, and every alpha
sample is the opaque 255 (alpha discarded). -/
theorem png_encoder_spec :
    (∀ i1 i2 : PILImage, i1.mode = i2.mode → i1.rows = i2.rows →
        pil_to_png_bytes i1 = pil_to_png_bytes i2)
    ∧ (∀ img : PILImage, ¬ img.mode = chars "RGB" → ¬ img.mode = chars "RGBA" →
        pil_to_png_bytes img = pngSerialize (convertRGB img)
        ∧ (convertRGB img).mode = chars "RGB"
        ∧ (convertRGB img).rows.map (List.map Pixel.r) = img.rows.map (List.map Pixel.r)
        ∧ (convertRGB img).rows.map (List.map Pixel.g) = img.rows.map (List.map Pixel.g)
        ∧ (convertRGB img).rows.map (List.map Pixel.b) = img.rows.map (List.map Pixel.b)
        ∧ ∀ row ∈ (convertRGB img).rows, ∀ p ∈ row, p.a = 255) := by
  constructor
  · intro i1 i2 hm hr
    cases i1
    cases i2
    simp only at hm hr
    subst hm
    subst hr
    rfl
  · intro img hm1 hm2
    refine ⟨by simp [pil_to_png_bytes, hm1, hm2], by simp [convertRGB, hm1], ?_, ?_, ?_, ?_⟩
    · simp [convertRGB, hm1, List.map_map, Function.comp]
    · simp [convertRGB, hm1, List.map_map, Function.comp]
    · simp [convertRGB, hm1, List.map_map, Function.comp]
    · intro row hrow p hp
      have hconv : (convertRGB img).rows
          = img.rows.map (fun r => r.map (fun p => ⟨p.r, p.g, p.b, 255⟩)) := by
        simp [convertRGB, hm1]
      rw [hconv] at hrow
      obtain ⟨row0, _, hrow0⟩ := List.mem_map.mp hrow
      rw [← hrow0] at hp
      obtain ⟨p0, _, hp0⟩ := List.mem_map.mp hp
      rw [← hp0]

/-- Witness for claim C8: a concrete grayscale image is serialized through
the RGB conversion, which yields mode RGB; and the encoder is reproducible
on it. -/
theorem png_encoder_spec_witness :
    pil_to_png_bytes testGray = pngSerialize (convertRGB testGray)
    ∧ (convertRGB testGray).mode = chars "RGB"
    ∧ pil_to_png_bytes testGray = pil_to_png_bytes testGray :=
  ⟨(png_encoder_spec.2 testGray (by decide) (by decide)).1,
    (png_encoder_spec.2 testGray (by decide) (by decide)).2.1,
    png_encoder_spec.1 testGray testGray rfl rfl⟩

end AutoTableCrop
